import Mathlib

/-!
Verification development for the tile-analyzer repository.

The embedded fragment covers the prioritized rule-classification engine
(`backend/main.py`: `evaluate_rule_group`, the counting loops of
`generate_heatmap` and `get_aggregate_heatmap_rules`, the empty branch of
`generate_heatmap`), the compiled single-pass SQL CASE classification of
`lib/reporting.py` (`generate_report_data`), the tiles search query compiler
(`backend/main.py`: `search_tiles`), and the percentage emission of
`scripts/generate_rule_report.py` (`create_report`).

Numbers are embedded as `Int` (Python/SQLite numeric values), strings as
`String`; a SQL `NULL` or Python `None` is `Option.none` in a field slot.
Python code that can raise an exception is embedded as an `Option`-valued
function where `none` means an exception escaped.
-/

namespace TileAnalyzer

/-- A scalar value of a record field or a condition: a number or a piece of
text. Floats are embedded as integers; none of the verified properties
depends on fractional values. -/
inductive Value where
  | int (n : Int)
  | str (s : String)
deriving DecidableEq

/-- A record (an image-tile row): a finite assignment of field names to
values. A key mapped to `none` is a field whose stored value is `NULL`;
a key that does not occur is absent from the record altogether. -/
abbrev Record := List (String × Option Value)

/-- Dictionary lookup `tile[key]` together with the `key in tile` test:
`none` means the key is absent, `some none` means present but `NULL`. -/
def recordGet (tile : Record) (key : String) : Option (Option Value) :=
  (tile.find? (fun p => p.1 == key)).map (fun p => p.2)

/-- `HeatmapCondition` of `backend/main.py` / `lib/reporting.py`: a single
`(key, op, value)` predicate. -/
structure HeatmapCondition where
  key : String
  op : String
  value : Value
deriving DecidableEq

/-- `RuleGroup` of `backend/main.py` / `lib/reporting.py`: a flat AND/OR
combination of conditions. -/
structure RuleGroup where
  logical_op : String
  conditions : List HeatmapCondition
deriving DecidableEq

/-- `HeatmapRule` of `backend/main.py` / `lib/reporting.py`. -/
structure HeatmapRule where
  name : Option String
  color : String
  rule_group : RuleGroup
deriving DecidableEq

/-- `HeatmapRulesConfig` of `backend/main.py` / `lib/reporting.py`. -/
structure HeatmapRulesConfig where
  default_color : String
  rules : List HeatmapRule
deriving DecidableEq

/-- ASCII uppercase of one character, as Python `str.upper` acts on the
ASCII range (the only range exercised by `logical_op` values). -/
def charUpper (c : Char) : Char :=
  if 97 ≤ c.toNat && c.toNat ≤ 122 then Char.ofNat (c.toNat - 32) else c

/-- ASCII lowercase of one character, as Python `str.lower` acts on the
ASCII range. -/
def charLower (c : Char) : Char :=
  if 65 ≤ c.toNat && c.toNat ≤ 90 then Char.ofNat (c.toNat + 32) else c

/-- Python `s.upper()`, restricted to the ASCII range. -/
def strUpper (s : String) : String := ⟨s.data.map charUpper⟩

/-- Python `s.lower()`, restricted to the ASCII range. -/
def strLower (s : String) : String := ⟨s.data.map charLower⟩

/-- Code-point lexicographic order on character lists: the common order of
Python string comparison and of SQLite TEXT comparison under the default
BINARY collation (byte order on UTF-8 agrees with code-point order). -/
def charListLt : List Char → List Char → Bool
  | [], [] => false
  | [], _ :: _ => true
  | _ :: _, [] => false
  | a :: as, b :: bs =>
    if a.toNat < b.toNat then true
    else if b.toNat < a.toNat then false
    else charListLt as bs

/-- Strict order on strings, code-point lexicographic. -/
def strLt (s t : String) : Bool := charListLt s.data t.data

/-- The operator whitelist: the keys of the `ops` dictionary built in
`generate_heatmap` / `get_aggregate_heatmap_rules` (`backend/main.py`),
which coincides with the `valid_operators` set of `search_tiles` and the
operator set checked in `generate_report_data`. -/
def opWhitelist : List String := [">", "<", ">=", "<=", "==", "!="]

/-- Python comparison `op_func(a, b)` for one of the six whitelisted
operators, as invoked by `evaluate_rule_group` (`backend/main.py` lines
768-786). `none` models a raised `TypeError`: Python refuses an order
comparison between a number and a string, while `==` (`!=`) on mixed types
returns `False` (`True`). String order is code-point lexicographic. -/
def pyCompare (op : String) (a b : Value) : Option Bool :=
  match a, b with
  | .int m, .int n =>
    if op == ">" then some (decide (m > n))
    else if op == "<" then some (decide (m < n))
    else if op == ">=" then some (decide (m ≥ n))
    else if op == "<=" then some (decide (m ≤ n))
    else if op == "==" then some (decide (m = n))
    else if op == "!=" then some (decide (m ≠ n))
    else none
  | .str s, .str t =>
    if op == ">" then some (strLt t s)
    else if op == "<" then some (strLt s t)
    else if op == ">=" then some (!(strLt s t))
    else if op == "<=" then some (!(strLt t s))
    else if op == "==" then some (s == t)
    else if op == "!=" then some (s != t)
    else none
  | _, _ =>
    if op == "==" then some false
    else if op == "!=" then some true
    else none

/-- One iteration of the condition loop of `evaluate_rule_group`
(`backend/main.py` lines 770-780): a condition whose key is absent or whose
record value is `None` contributes `False`; an operator outside the `ops`
dictionary makes `op_func` falsy, contributing `False`; otherwise the
Python comparison runs and may raise (`none`). -/
def evalCondition (tile : Record) (cond : HeatmapCondition) : Option Bool :=
  match recordGet tile cond.key with
  | some (some v) =>
    if opWhitelist.contains cond.op then pyCompare cond.op v cond.value
    else some false
  | _ => some false

/-- The `results` list of `evaluate_rule_group`: every condition is
evaluated (Python builds the whole list, without short-circuiting), and a
raised exception aborts the evaluation (`none`). -/
def evalConditions (tile : Record) : List HeatmapCondition → Option (List Bool)
  | [] => some []
  | c :: cs =>
    match evalCondition tile c, evalConditions tile cs with
    | some b, some bs => some (b :: bs)
    | _, _ => none

/-- `evaluate_rule_group` (`backend/main.py` lines 768-786): combine the
condition results with `all` for `"AND"`, `any` for `"OR"` (case
insensitive), and `False` for any other `logical_op`. -/
def evaluate_rule_group (tile : Record) (group : RuleGroup) : Option Bool :=
  match evalConditions tile group.conditions with
  | none => none
  | some results =>
    if strUpper group.logical_op == "AND" then some (results.all id)
    else if strUpper group.logical_op == "OR" then some (results.any id)
    else some false

/-- A classification outcome: the index of the matched rule, or the
default bucket. -/
inductive RLabel where
  | rule (i : Nat)
  | dflt
deriving DecidableEq

/-- The inner rule loop shared by `generate_heatmap` (lines 679-691) and
`get_aggregate_heatmap_rules` (lines 437-448) of `backend/main.py`:
evaluate the rules in order starting at index `i`, stop at the first group
that matches (`break`), fall through to the default bucket; a raised
exception aborts (`none`). -/
def firstMatch (tile : Record) : List HeatmapRule → Nat → Option RLabel
  | [], _ => some .dflt
  | r :: rs, i =>
    match evaluate_rule_group tile r.rule_group with
    | none => none
    | some true => some (.rule i)
    | some false => firstMatch tile rs (i + 1)

/-- Classify one record against an ordered rule list (in-memory strategy). -/
def classifyTile (rules : List HeatmapRule) (tile : Record) : Option RLabel :=
  firstMatch tile rules 0

/-- Classify every record of a batch; the first record whose evaluation
raises aborts the whole computation, as in the Python endpoint loops. -/
def classifyAll (rules : List HeatmapRule) : List Record → Option (List RLabel)
  | [] => some []
  | t :: ts =>
    match classifyTile rules t, classifyAll rules ts with
    | some l, some ls => some (l :: ls)
    | _, _ => none

/-- Occurrence count of a label in a classification list. -/
def countL (x : RLabel) : List RLabel → Nat
  | [] => 0
  | y :: t => (if y = x then 1 else 0) + countL x t

/-- The per-rule counters `rule_match_counts[str(i)]`, one per rule index. -/
def ruleCounts (n : Nat) (ls : List RLabel) : List Nat :=
  (List.range n).map (fun i => countL (.rule i) ls)

/-- The counter dictionary built by the counting loops of
`generate_heatmap` / `get_aggregate_heatmap_rules`: per-rule counts in
index order plus the `default` count, or `none` when an evaluation raised. -/
def inMemoryCounts (rules : List HeatmapRule) (tiles : List Record) :
    Option (List Nat × Nat) :=
  (classifyAll rules tiles).map (fun ls => (ruleCounts rules.length ls, countL .dflt ls))

example : evaluate_rule_group
    [("laplacian", some (.int 150))]
    ⟨"AND", [⟨"laplacian", ">", .int 100⟩]⟩ = some true := by decide

example : evaluate_rule_group
    [("laplacian", some (.int 5))]
    ⟨"AND", [⟨"laplacian", ">", .str "x"⟩]⟩ = none := by decide

example : inMemoryCounts
    [⟨none, "red", ⟨"AND", [⟨"laplacian", ">", .int 100⟩]⟩⟩]
    [[("laplacian", some (.int 50))], [("laplacian", some (.int 150))],
     [("laplacian", some (.int 100))]] = some ([1], 2) := by decide

/-- `VALID_COLUMNS` of `lib/reporting.py` (lines 34-39): the column names a
condition may compile to in `generate_report_data`. -/
def VALID_COLUMNS : List String :=
  ["status", "col", "row", "size", "laplacian", "avg_brightness",
   "avg_saturation", "entropy", "edge_density", "edge_density_3060",
   "foreground_ratio", "max_subject_area",
   "model_score", "model_classification"]

/-- The columns of the `ImageTiles` table
(`scripts/create_database.py` lines 43-62). -/
def imageTilesColumns : List String :=
  ["id", "source_file_id", "webp_filename", "status", "col", "row", "size",
   "laplacian", "avg_brightness", "avg_saturation", "entropy",
   "edge_density", "edge_density_3060", "foreground_ratio",
   "max_subject_area"]

/-- The condition keys that both classification strategies read from the
same place: `ImageTiles` columns that `generate_report_data` accepts and
that are not redirected to the `Predictions` join
(`model_score` / `model_classification` map to `P.score` /
`P.predicted_class`, which the in-memory strategy never sees). -/
def sharedTileColumns : List String :=
  ["status", "col", "row", "size", "laplacian", "avg_brightness",
   "avg_saturation", "entropy", "edge_density", "edge_density_3060",
   "foreground_ratio", "max_subject_area"]

/-- The condition filter of `generate_report_data` (`lib/reporting.py`
line 69): a condition is compiled into the CASE expression only when its
key is a valid column and its operator is whitelisted; other conditions
are silently dropped. -/
def keptConditions (g : RuleGroup) : List HeatmapCondition :=
  g.conditions.filter
    (fun c => VALID_COLUMNS.contains c.key && opWhitelist.contains c.op)

/-- SQLite evaluation of `column op literal` on two non-NULL operands,
under the default BINARY collation. Operands of different storage classes
compare by class order (numeric sorts before text); column-affinity
conversions of the literal are not modelled (every theorem that exercises
a comparison assumes operands of the same class). The operator is one of
the six whitelisted ones; an unreachable final branch answers for `!=`. -/
def sqlCompare (op : String) (a b : Value) : Bool :=
  match a, b with
  | .int m, .int n =>
    if op == ">" then decide (m > n)
    else if op == "<" then decide (m < n)
    else if op == ">=" then decide (m ≥ n)
    else if op == "<=" then decide (m ≤ n)
    else if op == "==" then decide (m = n)
    else decide (m ≠ n)
  | .str s, .str t =>
    if op == ">" then strLt t s
    else if op == "<" then strLt s t
    else if op == ">=" then !(strLt s t)
    else if op == "<=" then !(strLt t s)
    else if op == "==" then s == t
    else s != t
  | .int _, .str _ => op == "<" || op == "<=" || op == "!="
  | .str _, .int _ => op == ">" || op == ">=" || op == "!="

/-- SQL three-valued evaluation of one compiled condition
(`(db_column op sql_value)` built at `lib/reporting.py` line 78) against a
row: a `NULL` (or absent) column value makes the comparison `NULL`
(`none`), otherwise the comparison is `TRUE` or `FALSE`. A row of the
report query carries the `ImageTiles` columns; a prediction column with no
joined row is `NULL`, which coincides with an absent key here. -/
def sqlEvalCondition (row : Record) (cond : HeatmapCondition) : Option Bool :=
  match recordGet row cond.key with
  | some (some v) => some (sqlCompare cond.op v cond.value)
  | _ => none

/-- Whether the WHEN clause compiled from a rule group evaluates to SQL
`TRUE` on a row. The kept conditions are joined with `AND` when
`logical_op.upper() == "AND"` and with `OR` otherwise
(`lib/reporting.py` line 81); under SQL three-valued logic a conjunction
is `TRUE` exactly when every conjunct is `TRUE`, and a disjunction is
`TRUE` exactly when some disjunct is `TRUE`. A CASE branch is taken
exactly when its WHEN condition is `TRUE`. -/
def compiledGroupTaken (row : Record) (g : RuleGroup) : Bool :=
  if strUpper g.logical_op == "AND" then
    (keptConditions g).all (fun c => sqlEvalCondition row c == some true)
  else
    (keptConditions g).any (fun c => sqlEvalCondition row c == some true)

/-- The CASE expression built by `generate_report_data` (`lib/reporting.py`
lines 64-85), evaluated on one row: rules are scanned in index order, a
rule whose kept-condition list is empty contributes no WHEN clause
(line 80) and is skipped, the first WHEN condition evaluating `TRUE`
yields that rule's index, and the ELSE branch yields the default label. -/
def caseLabelGo (row : Record) : List HeatmapRule → Nat → RLabel
  | [], _ => .dflt
  | r :: rs, i =>
    if (keptConditions r.rule_group).isEmpty then caseLabelGo row rs (i + 1)
    else if compiledGroupTaken row r.rule_group then .rule i
    else caseLabelGo row rs (i + 1)

/-- Classify one row with the compiled single-pass CASE expression. -/
def caseLabel (rules : List HeatmapRule) (row : Record) : RLabel :=
  caseLabelGo row rules 0

/-- The per-group counts that `generate_report_data` reports for one batch
of rows (`lib/reporting.py` lines 100-117): the grouped query counts the
rows the CASE labels with each rule index, and the default count is then
overwritten with `total_tiles - matched_sum` (lines 116-117), the total
minus the sum of the explicit per-rule counts. -/
def compiledCounts (rules : List HeatmapRule) (tiles : List Record) :
    List Nat × Nat :=
  let labels := tiles.map (caseLabel rules)
  let per := ruleCounts rules.length labels
  (per, tiles.length - per.sum)

example : compiledCounts
    [⟨none, "red", ⟨"AND", [⟨"laplacian", ">", .int 100⟩]⟩⟩]
    [[("laplacian", some (.int 50))], [("laplacian", some (.int 150))],
     [("laplacian", some (.int 100))]] = ([1], 2) := by decide

example : compiledCounts
    [⟨none, "red", ⟨"AND", []⟩⟩] [[("laplacian", some (.int 1))]] =
    ([0], 1) := by decide

example : inMemoryCounts
    [⟨none, "red", ⟨"AND", []⟩⟩] [[("laplacian", some (.int 1))]] =
    some ([1], 0) := by decide

/-- A `Filter` entry of the `/api/tiles` request body (`backend/main.py`
lines 50-53). -/
structure Filter where
  key : String
  op : String
  value : Value
deriving DecidableEq

/-- A `Sort` entry of the `/api/tiles` request body (`backend/main.py`
lines 55-57). -/
structure SortSpec where
  key : String
  order : String
deriving DecidableEq

/-- A `TilesRequest` (`backend/main.py` lines 59-63); FastAPI defaults are
`filters = []`, `sort = [Sort(key="id", order="asc")]`, `page = 1`,
`limit = 50`. -/
structure TilesRequest where
  filters : List Filter
  sort : List SortSpec
  page : Int
  limit : Int
deriving DecidableEq

/-- `valid_operators` of `search_tiles` (`backend/main.py` line 92). -/
def valid_operators : List String := [">", "<", ">=", "<=", "==", "!="]

/-- The table alias put in front of a key (`backend/main.py` lines 95 and
105): `S` for `json_filename`, `T` for everything else. -/
def tableAlias (key : String) : String :=
  if key == "json_filename" then "S" else "T"

/-- The filter loop of `search_tiles` (`backend/main.py` lines 90-99):
each filter with a whitelisted operator appends the clause
`{alias}.{key} {op} ?` to `where_clauses` and its value to `params`; a
filter with any other operator is skipped (`continue`). The key is
interpolated into the clause verbatim; the value never is. -/
def buildFilterClauses : List Filter → List String × List Value
  | [] => ([], [])
  | f :: fs =>
    let rest := buildFilterClauses fs
    if valid_operators.contains f.op then
      ((tableAlias f.key ++ "." ++ f.key ++ " " ++ f.op ++ " ?") :: rest.1,
       f.value :: rest.2)
    else rest

/-- The filters `search_tiles` retains: exactly those whose operator is
whitelisted. -/
def retainedFilters (fs : List Filter) : List Filter :=
  fs.filter (fun f => valid_operators.contains f.op)

/-- One `ORDER BY` part (`backend/main.py` lines 104-106): the direction
is upper-cased when it is `asc`/`desc` case-insensitively, and silently
replaced by `ASC` otherwise; the sort key is interpolated verbatim behind
its table alias. -/
def orderByPart (s : SortSpec) : String :=
  let direction :=
    if strLower s.order == "asc" || strLower s.order == "desc" then
      strUpper s.order
    else "ASC"
  tableAlias s.key ++ "." ++ s.key ++ " " ++ direction

/-- `order_by_clause` (`backend/main.py` lines 101-108): the joined sort
parts, or the stable `ORDER BY T.id ASC` when the request carries no sort
entries. -/
def orderByClause (ss : List SortSpec) : String :=
  let parts := ss.map orderByPart
  if parts.isEmpty then "ORDER BY T.id ASC"
  else "ORDER BY " ++ String.intercalate ", " parts

/-- `base_query` of `search_tiles` (`backend/main.py` line 84). -/
def base_query : String :=
  "SELECT T.*, S.json_filename FROM ImageTiles T JOIN SourceFiles S ON T.source_file_id = S.id"

/-- `count_query` of `search_tiles` before filtering
(`backend/main.py` line 85). -/
def count_query_base : String :=
  "SELECT COUNT(T.id) FROM ImageTiles T JOIN SourceFiles S ON T.source_file_id = S.id"

/-- The `WHERE` suffix appended to both queries (`backend/main.py` lines
113-116): nothing when no clause survived, otherwise the clauses joined
with `AND` — always a conjunction; the compiler can produce no
disjunction. -/
def whereSuffix (fs : List Filter) : String :=
  let cs := (buildFilterClauses fs).1
  if cs.isEmpty then "" else " WHERE " ++ String.intercalate " AND " cs

/-- The two executed statements of `search_tiles` with their parameter
lists (`backend/main.py` lines 110-124): the count query runs with the
filter parameters alone, the page query appends
`LIMIT ? OFFSET ?` with `offset = (page - 1) * limit`. -/
def buildSearchQueries (req : TilesRequest) :
    (String × List Value) × (String × List Value) :=
  let built := buildFilterClauses req.filters
  let whereSfx := if built.1.isEmpty then ""
    else " WHERE " ++ String.intercalate " AND " built.1
  ((count_query_base ++ whereSfx, built.2),
   (base_query ++ whereSfx ++ " " ++ orderByClause req.sort ++ " LIMIT ? OFFSET ?",
    built.2 ++ [Value.int req.limit, Value.int ((req.page - 1) * req.limit)]))

/-- Whether a key names a column the executed queries can resolve: every
clause is prefixed `T.` except `json_filename`, which resolves through the
joined `SourceFiles` table. Any other key makes SQLite raise
`no such column`. -/
def columnResolves (key : String) : Bool :=
  if key == "json_filename" then true else imageTilesColumns.contains key

/-- Whether one retained comparison `{alias}.{key} {op} ?` holds on a row
of the joined result set (the `ImageTiles` columns plus `json_filename`):
a `NULL` or absent operand yields SQL `NULL`, which a `WHERE` clause does
not accept. -/
def filterHolds (row : Record) (f : Filter) : Bool :=
  match recordGet row f.key with
  | some (some v) => sqlCompare f.op v f.value
  | _ => false

/-- Whether executing the two statements raises `sqlite3.OperationalError`
(`backend/main.py` lines 120-129, answered as an HTTP 400 error): the
count query fails when a retained filter references an unresolvable
column, and the page query additionally fails on an unresolvable sort
key. -/
def searchErrors (req : TilesRequest) : Bool :=
  (retainedFilters req.filters).any (fun f => !(columnResolves f.key)) ||
  req.sort.any (fun s => !(columnResolves s.key))

/-- The `total_results` field of the `/api/tiles` response over a given
row set, or an error outcome: when execution succeeds, the count query
counts exactly the rows on which every retained comparison evaluates
`TRUE`. -/
def totalResults (req : TilesRequest) (db : List Record) : Except String Nat :=
  if searchErrors req then Except.error "no such column"
  else Except.ok
    ((db.filter (fun row => (retainedFilters req.filters).all (filterHolds row))).length)

example : buildFilterClauses [⟨"laplacian", ">", .int 5⟩, ⟨"status", "LIKE", .str "x"⟩] =
    (["T.laplacian > ?"], [.int 5]) := by decide

example : totalResults ⟨[⟨"nonexistent_field", ">", .int 5⟩], [⟨"id", "asc"⟩], 1, 50⟩
    [[("id", some (.int 1))]] = Except.error "no such column" := rfl

/-- The integer `col` and `row` of a tile, read as `tile['col']` and
`tile['row']` by `generate_heatmap`; a missing key or a non-integer value
makes the Python grid computation raise (`none`). -/
def tileColRow (t : Record) : Option (Int × Int) :=
  match recordGet t "col", recordGet t "row" with
  | some (some (.int c)), some (some (.int r)) => some (c, r)
  | _, _ => none

/-- Python `max` over a nonempty collection, seeded with its first
element. -/
def maxIntList : Int → List Int → Int
  | m, [] => m
  | m, x :: xs => maxIntList (max m x) xs

/-- Python list item assignment `data[i] = v`: a negative index wraps
around once, and an index outside the list raises (`none`). -/
def pySetStr (l : List String) (i : Int) (v : String) : Option (List String) :=
  let n : Int := l.length
  let j := if i < 0 then i + n else i
  if 0 ≤ j && j < n then some (l.set j.toNat v) else none

/-- One iteration of the tile loop of `generate_heatmap`
(`backend/main.py` lines 679-691): classify the tile; on a match paint
`heatmap_data[row * grid_width + col]` with the matching rule's color. -/
def applyTile (rules : List HeatmapRule) (gw : Int) (t : Record)
    (data : List String) : Option (List String × RLabel) :=
  match classifyTile rules t with
  | none => none
  | some .dflt => some (data, .dflt)
  | some (.rule i) =>
    match tileColRow t, rules.get? i with
    | some cr, some rule =>
      match pySetStr data (cr.2 * gw + cr.1) rule.color with
      | some d => some (d, .rule i)
      | none => none
    | _, _ => none

/-- The tile loop of `generate_heatmap`, threading the grid data and
recording each tile's label in order. -/
def heatmapFold (rules : List HeatmapRule) (gw : Int) :
    List Record → List String → Option (List String × List RLabel)
  | [], data => some (data, [])
  | t :: ts, data =>
    match applyTile rules gw t data with
    | none => none
    | some (d, l) =>
      match heatmapFold rules gw ts d with
      | none => none
      | some (d2, ls) => some (d2, l :: ls)

/-- The `rule_match_counts` dictionary of `generate_heatmap`
(`backend/main.py` lines 675-691) in its insertion order: the key
`str(i)` for every rule index, then `default`. -/
def countsAssoc (n : Nat) (ls : List RLabel) : List (String × Nat) :=
  ((List.range n).map (fun i => (toString i, countL (.rule i) ls))) ++
    [("default", countL .dflt ls)]

/-- The response body of `/api/heatmap` (`backend/main.py` lines 637-699). -/
structure HeatmapResponse where
  grid_width : Int
  grid_height : Int
  heatmap_data : List String
  rules_config : HeatmapRulesConfig
  rule_match_counts : List (String × Nat)
deriving DecidableEq

/-- `generate_heatmap` (`backend/main.py` lines 637-699). With no tiles
the endpoint answers grid `0 × 0`, an empty `heatmap_data` and an empty
`rule_match_counts` dictionary (lines 650-658). Otherwise the grid is
`(max col + 1) × (max row + 1)`, the data starts as
`[default_color] * (width * height)` and each tile is classified and
painted; an escaped exception is `none`. -/
def generateHeatmap (cfg : HeatmapRulesConfig) (tiles : List Record) :
    Option HeatmapResponse :=
  if tiles.isEmpty then
    some ⟨0, 0, [], cfg, []⟩
  else
    match tiles.mapM tileColRow with
    | none => none
    | some [] => none
    | some (cr :: crs) =>
      let max_col := maxIntList cr.1 (crs.map (fun p => p.1))
      let max_row := maxIntList cr.2 (crs.map (fun p => p.2))
      let gw := max_col + 1
      let gh := max_row + 1
      let init := List.replicate (gw * gh).toNat cfg.default_color
      match heatmapFold cfg.rules gw tiles init with
      | none => none
      | some (data, ls) =>
        some ⟨gw, gh, data, cfg, countsAssoc cfg.rules.length ls⟩

/-- Key lookup in an emitted counts dictionary. -/
def assocFind (l : List (String × Nat)) (k : String) : Option Nat :=
  (l.find? (fun p => p.1 == k)).map (fun p => p.2)

/-- The percentage emitted for one count by `create_report`
(`scripts/generate_rule_report.py` line 83):
`count / total_tiles * 100` when the group's total is positive, and `0`
otherwise, avoiding the division error. Exact rational arithmetic stands
in for Python floats. -/
def percentage (count total : Nat) : ℚ :=
  if 0 < total then (count : ℚ) / (total : ℚ) * 100 else 0

example : generateHeatmap ⟨"gray", [⟨none, "red", ⟨"AND", [⟨"laplacian", ">", .int 100⟩]⟩⟩]⟩
    [] = some ⟨0, 0, [], ⟨"gray", [⟨none, "red", ⟨"AND", [⟨"laplacian", ">", .int 100⟩]⟩⟩]⟩, []⟩ := by
  decide

example : generateHeatmap ⟨"gray", [⟨none, "red", ⟨"AND", [⟨"laplacian", ">", .int 100⟩]⟩⟩]⟩
    [[("col", some (.int 0)), ("row", some (.int 0)), ("laplacian", some (.int 150))],
     [("col", some (.int 1)), ("row", some (.int 0)), ("laplacian", some (.int 50))]] =
    some ⟨2, 1, ["red", "gray"], ⟨"gray", [⟨none, "red", ⟨"AND", [⟨"laplacian", ">", .int 100⟩]⟩⟩]⟩,
      [("0", 1), ("default", 1)]⟩ := by decide

/-- Whether two values carry the same storage class (both numbers or both
text); Python order comparisons require this, and SQLite compares same
class operands directly. -/
def sameType : Value → Value → Bool
  | .int _, .int _ => true
  | .str _, .str _ => true
  | _, _ => false

/-- A condition is type-compatible with a record when the record's value
for its key, if present and non-null, has the same storage class as the
condition's value. -/
def typeOk (tile : Record) (c : HeatmapCondition) : Bool :=
  match recordGet tile c.key with
  | some (some v) => sameType v c.value
  | _ => true

/-- A condition both engines treat alike: key among the shared tile
columns, operator whitelisted. -/
def condOk (c : HeatmapCondition) : Bool :=
  sharedTileColumns.contains c.key && opWhitelist.contains c.op

/-- A rule group in the fragment on which the two classification engines
were designed to coincide: at least one condition, a recognized
`logical_op`, and every condition shared-column/whitelisted. -/
def groupOk (g : RuleGroup) : Bool :=
  !g.conditions.isEmpty &&
  (strUpper g.logical_op == "AND" || strUpper g.logical_op == "OR") &&
  g.conditions.all condOk

/-- A condition value whose SQL literal rendering round-trips: numbers
always, text only when it contains no single-quote character
(`generate_report_data` embeds a string value between plain quotes at
`lib/reporting.py` line 77). -/
def valueQuoteSafe : Value → Bool
  | .int _ => true
  | .str s => s.data.all (fun ch => ch ≠ Char.ofNat 39)

theorem sum_map_range_congr (f g : Nat → Nat) (n : Nat)
    (h : ∀ i, i < n → f i = g i) :
    ((List.range n).map f).sum = ((List.range n).map g).sum := by
  induction n with
  | zero => rfl
  | succ m ih =>
    rw [List.range_succ, List.map_append, List.map_append, List.sum_append,
      List.sum_append, ih (fun i hi => h i (Nat.lt_succ_of_lt hi))]
    simp [h m (Nat.lt_succ_self m)]

theorem sum_map_range_bump (c : Nat → Nat) (j n : Nat) (hj : j < n) :
    ((List.range n).map (fun i => c i + if i = j then 1 else 0)).sum =
      ((List.range n).map c).sum + 1 := by
  induction n with
  | zero => exact absurd hj (Nat.not_lt_zero j)
  | succ m ih =>
    rw [List.range_succ, List.map_append, List.map_append, List.sum_append,
      List.sum_append]
    simp only [List.map_cons, List.map_nil, List.sum_cons, List.sum_nil]
    by_cases hjm : j = m
    · have h1 : ((List.range m).map (fun i => c i + if i = j then 1 else 0)).sum =
          ((List.range m).map c).sum :=
        sum_map_range_congr _ _ m (fun i hi => by
          have hne : i ≠ j := by omega
          simp [hne])
      rw [h1, if_pos hjm.symm]
      omega
    · have hjm2 : j < m := by omega
      rw [ih hjm2, if_neg (fun h => hjm h.symm)]
      omega

theorem countL_nil (x : RLabel) : countL x [] = 0 := rfl

theorem countL_cons (x y : RLabel) (t : List RLabel) :
    countL x (y :: t) = (if y = x then 1 else 0) + countL x t := rfl

theorem ruleCounts_cons_dflt (n : Nat) (t : List RLabel) :
    ruleCounts n (RLabel.dflt :: t) = ruleCounts n t := by
  unfold ruleCounts
  apply List.map_congr_left
  intro i _
  rw [countL_cons, if_neg (fun h => RLabel.noConfusion h), Nat.zero_add]

theorem ruleCounts_cons_rule (n j : Nat) (hj : j < n) (t : List RLabel) :
    (ruleCounts n (RLabel.rule j :: t)).sum = (ruleCounts n t).sum + 1 := by
  unfold ruleCounts
  have h1 : (List.range n).map (fun i => countL (.rule i) (RLabel.rule j :: t)) =
      (List.range n).map (fun i => countL (.rule i) t + if i = j then 1 else 0) := by
    apply List.map_congr_left
    intro i _
    rw [countL_cons]
    by_cases hij : i = j
    · subst hij
      rw [if_pos rfl, if_pos rfl]
      omega
    · rw [if_neg (fun h => hij (RLabel.rule.inj h).symm), if_neg hij]
      omega
  rw [h1, sum_map_range_bump _ j n hj]

/-- A classification list whose labels all point at one of the first `n`
rules or at the default bucket partitions its length between the per-rule
counters and the default counter. -/
theorem ruleCounts_partition (n : Nat) (ls : List RLabel)
    (h : ∀ l ∈ ls, l = RLabel.dflt ∨ ∃ i, i < n ∧ l = RLabel.rule i) :
    (ruleCounts n ls).sum + countL .dflt ls = ls.length := by
  induction ls with
  | nil => simp [ruleCounts, countL]
  | cons a t ih =>
    have ht := ih (fun l hl => h l (List.mem_cons_of_mem a hl))
    rcases h a (List.mem_cons_self a t) with ha | ⟨j, hj, ha⟩
    · subst ha
      rw [ruleCounts_cons_dflt, countL_cons, if_pos rfl, List.length_cons]
      omega
    · subst ha
      rw [ruleCounts_cons_rule n j hj t, countL_cons,
        if_neg (fun h => RLabel.noConfusion h), List.length_cons]
      omega

/-- Labels produced by the in-memory scan starting at index `i0` point at
positions within the scanned suffix. -/
theorem firstMatch_label_range (tile : Record) :
    ∀ (rs : List HeatmapRule) (i0 : Nat) (l : RLabel),
      firstMatch tile rs i0 = some l →
      l = RLabel.dflt ∨ ∃ j, i0 ≤ j ∧ j < i0 + rs.length ∧ l = RLabel.rule j := by
  intro rs
  induction rs with
  | nil =>
    intro i0 l h
    simp [firstMatch] at h
    exact Or.inl h.symm
  | cons r rest ih =>
    intro i0 l h
    unfold firstMatch at h
    cases hev : evaluate_rule_group tile r.rule_group with
    | none => rw [hev] at h; exact absurd h (by simp)
    | some b =>
      rw [hev] at h
      cases b with
      | true =>
        simp at h
        exact Or.inr ⟨i0, Nat.le_refl i0, by simp [← h], by simp [← h]⟩
      | false =>
        simp at h
        rcases ih (i0 + 1) l h with hd | ⟨j, hj1, hj2, hj3⟩
        · exact Or.inl hd
        · exact Or.inr ⟨j, by omega, by simp [List.length_cons]; omega, hj3⟩

/-- Labels produced by the compiled CASE scan starting at index `i0`
point at positions within the scanned suffix. -/
theorem caseLabelGo_range (row : Record) :
    ∀ (rs : List HeatmapRule) (i0 : Nat),
      caseLabelGo row rs i0 = RLabel.dflt ∨
      ∃ j, i0 ≤ j ∧ j < i0 + rs.length ∧ caseLabelGo row rs i0 = RLabel.rule j := by
  intro rs
  induction rs with
  | nil => intro i0; exact Or.inl rfl
  | cons r rest ih =>
    intro i0
    unfold caseLabelGo
    by_cases he : (keptConditions r.rule_group).isEmpty
    · rcases ih (i0 + 1) with hd | ⟨j, hj1, hj2, hj3⟩
      · exact Or.inl (by simp [he, hd])
      · exact Or.inr ⟨j, by omega, by simp [List.length_cons]; omega, by simp [he, hj3]⟩
    · by_cases hm : compiledGroupTaken row r.rule_group
      · exact Or.inr ⟨i0, Nat.le_refl i0, by simp, by simp [he, hm]⟩
      · rcases ih (i0 + 1) with hd | ⟨j, hj1, hj2, hj3⟩
        · exact Or.inl (by simp [he, hm, hd])
        · exact Or.inr ⟨j, by omega, by simp [List.length_cons]; omega, by simp [he, hm, hj3]⟩

/-- A successful batch classification returns one label per record, each
pointing at an actual rule or at the default bucket. -/
theorem classifyAll_spec (rules : List HeatmapRule) :
    ∀ (tiles : List Record) (ls : List RLabel),
      classifyAll rules tiles = some ls →
      ls.length = tiles.length ∧
      ∀ l ∈ ls, l = RLabel.dflt ∨ ∃ i, i < rules.length ∧ l = RLabel.rule i := by
  intro tiles
  induction tiles with
  | nil =>
    intro ls h
    simp [classifyAll] at h
    subst h
    exact ⟨rfl, by simp⟩
  | cons t ts ih =>
    intro ls h
    unfold classifyAll at h
    cases h1 : classifyTile rules t with
    | none => rw [h1] at h; exact absurd h (by simp)
    | some l =>
      rw [h1] at h
      cases h2 : classifyAll rules ts with
      | none => rw [h2] at h; exact absurd h (by simp)
      | some ls2 =>
        rw [h2] at h
        simp at h
        subst h
        obtain ⟨hlen, hmem⟩ := ih ls2 h2
        refine ⟨by simp [hlen], ?_⟩
        intro x hx
        rcases List.mem_cons.mp hx with hx | hx
        · subst hx
          rcases firstMatch_label_range t rules 0 x h1 with hd | ⟨j, _, hj2, hj3⟩
          · exact Or.inl hd
          · exact Or.inr ⟨j, by omega, hj3⟩
        · exact hmem x hx

/-- Every label of a compiled classification points at an actual rule or
at the default bucket. -/
theorem caseLabels_mem_spec (rules : List HeatmapRule) (tiles : List Record) :
    ∀ l ∈ tiles.map (caseLabel rules),
      l = RLabel.dflt ∨ ∃ i, i < rules.length ∧ l = RLabel.rule i := by
  intro l hl
  rcases List.mem_map.mp hl with ⟨t, _, rfl⟩
  rcases caseLabelGo_range t rules 0 with hd | ⟨j, _, hj2, hj3⟩
  · exact Or.inl hd
  · exact Or.inr ⟨j, by omega, hj3⟩

/-- C2: for every RuleSet and every record set, classification yields
counts with `sum(per-rule counts) + default count = total records
evaluated`: whenever the in-memory strategy returns counters they satisfy
the partition, the empty record set yields all-zero counters, and the
compiled counts always partition the batch total. -/
theorem partition_invariant (rules : List HeatmapRule) (tiles : List Record) :
    (∀ (per : List Nat) (d : Nat),
      inMemoryCounts rules tiles = some (per, d) → per.sum + d = tiles.length) ∧
    inMemoryCounts rules [] = some (List.replicate rules.length 0, 0) ∧
    (compiledCounts rules tiles).1.sum + (compiledCounts rules tiles).2 = tiles.length := by
  refine ⟨?_, ?_, ?_⟩
  · intro per d h
    unfold inMemoryCounts at h
    cases hc : classifyAll rules tiles with
    | none => rw [hc] at h; exact absurd h (by simp)
    | some ls =>
      rw [hc] at h
      simp only [Option.map_some', Option.some.injEq, Prod.mk.injEq] at h
      obtain ⟨hper, hd⟩ := h
      obtain ⟨hlen, hmem⟩ := classifyAll_spec rules tiles ls hc
      rw [← hper, ← hd, ruleCounts_partition rules.length ls hmem, hlen]
  · show (classifyAll rules []).map _ = _
    unfold classifyAll
    simp only [Option.map_some', Option.some.injEq, Prod.mk.injEq]
    constructor
    · unfold ruleCounts
      have : ∀ i ∈ List.range rules.length,
          countL (RLabel.rule i) [] = (fun _ : Nat => 0) i := fun i _ => rfl
      rw [List.map_congr_left this, List.map_const', List.length_range]
    · rfl
  · have hpart := ruleCounts_partition rules.length (tiles.map (caseLabel rules))
      (caseLabels_mem_spec rules tiles)
    rw [List.length_map] at hpart
    show (ruleCounts rules.length (tiles.map (caseLabel rules))).sum +
      (tiles.length - (ruleCounts rules.length (tiles.map (caseLabel rules))).sum) =
        tiles.length
    omega

/-- Concrete rule set for witness instantiations: one threshold rule. -/
def rulesW : List HeatmapRule :=
  [⟨none, "red", ⟨"AND", [⟨"laplacian", ">", .int 100⟩]⟩⟩]

/-- Concrete record batch for witness instantiations. -/
def tilesW : List Record :=
  [[("laplacian", some (.int 150))], [("laplacian", some (.int 50))]]

theorem partition_invariant_witness : ([1] : List Nat).sum + 1 = 2 :=
  (partition_invariant rulesW tilesW).1 [1] 1 (by decide)

/-- The scan starting at `i0` answers the first matching index, offset by
`i0`, provided every earlier rule in the scanned suffix evaluates to a
clean non-match. -/
theorem firstMatch_first (tile : Record) :
    ∀ (rs : List HeatmapRule) (i0 i : Nat) (hi : i < rs.length),
      (∀ k, (hk : k < i) →
        evaluate_rule_group tile (rs.get ⟨k, Nat.lt_trans hk hi⟩).rule_group = some false) →
      evaluate_rule_group tile (rs.get ⟨i, hi⟩).rule_group = some true →
      firstMatch tile rs i0 = some (RLabel.rule (i0 + i)) := by
  intro rs
  induction rs with
  | nil => intro i0 i hi; exact absurd hi (by simp)
  | cons r rest ih =>
    intro i0 i hi hbefore hmatch
    cases i with
    | zero =>
      unfold firstMatch
      rw [show (r :: rest).get ⟨0, hi⟩ = r from rfl] at hmatch
      rw [hmatch]
      rfl
    | succ m =>
      have h0 : evaluate_rule_group tile r.rule_group = some false := by
        have := hbefore 0 (Nat.succ_pos m)
        rwa [show (r :: rest).get ⟨0, _⟩ = r from rfl] at this
      unfold firstMatch
      rw [h0]
      have hm : m < rest.length := by
        have hi2 := hi
        rw [List.length_cons] at hi2
        omega
      have hres := ih (i0 + 1) m hm
        (fun k hk => by
          have := hbefore (k + 1) (Nat.succ_lt_succ hk)
          rwa [show (r :: rest).get ⟨k + 1, _⟩ = rest.get ⟨k, Nat.lt_trans hk hm⟩ from rfl] at this)
        (by
          rwa [show (r :: rest).get ⟨m + 1, hi⟩ = rest.get ⟨m, hm⟩ from rfl] at hmatch)
      rw [hres]
      have harith : i0 + 1 + m = i0 + (m + 1) := by omega
      rw [harith]

/-- The scan answers the default bucket when every rule evaluates to a
clean non-match. -/
theorem firstMatch_default (tile : Record) :
    ∀ (rs : List HeatmapRule) (i0 : Nat),
      (∀ r ∈ rs, evaluate_rule_group tile r.rule_group = some false) →
      firstMatch tile rs i0 = some RLabel.dflt := by
  intro rs
  induction rs with
  | nil => intro i0 _; rfl
  | cons r rest ih =>
    intro i0 h
    unfold firstMatch
    rw [h r (List.mem_cons_self r rest)]
    exact ih (i0 + 1) (fun x hx => h x (List.mem_cons_of_mem r hx))

/-- A matched label never points past a rule that evaluates to a match. -/
theorem firstMatch_le (tile : Record) :
    ∀ (rs : List HeatmapRule) (i0 i : Nat) (hi : i < rs.length) (j : Nat),
      evaluate_rule_group tile (rs.get ⟨i, hi⟩).rule_group = some true →
      firstMatch tile rs i0 = some (RLabel.rule j) →
      j ≤ i0 + i := by
  intro rs
  induction rs with
  | nil => intro i0 i hi; exact absurd hi (by simp)
  | cons r rest ih =>
    intro i0 i hi j hmatch hfm
    unfold firstMatch at hfm
    cases hev : evaluate_rule_group tile r.rule_group with
    | none => rw [hev] at hfm; exact absurd hfm (by simp)
    | some b =>
      rw [hev] at hfm
      cases b with
      | true =>
        simp at hfm
        omega
      | false =>
        simp at hfm
        cases i with
        | zero =>
          rw [show (r :: rest).get ⟨0, hi⟩ = r from rfl] at hmatch
          rw [hev] at hmatch
          exact absurd hmatch (by simp)
        | succ m =>
          have hm : m < rest.length := by
            have hi2 := hi
            rw [List.length_cons] at hi2
            omega
          have := ih (i0 + 1) m hm j
            (by rwa [show (r :: rest).get ⟨m + 1, hi⟩ = rest.get ⟨m, hm⟩ from rfl] at hmatch)
            hfm
          omega

/-- C3: the classifier evaluates rules in index order and assigns each
record to the first rule whose group matches: the first clean match at
index `i` is the assigned label, a record matching no rule is assigned the
default bucket, and a record matching both `i` and `j` with `i < j` is
never counted under `j`. -/
theorem priority_first_match (rules : List HeatmapRule) (tile : Record) :
    (∀ i, (hi : i < rules.length) →
      (∀ k, (hk : k < i) →
        evaluate_rule_group tile (rules.get ⟨k, Nat.lt_trans hk hi⟩).rule_group = some false) →
      evaluate_rule_group tile (rules.get ⟨i, hi⟩).rule_group = some true →
      classifyTile rules tile = some (RLabel.rule i)) ∧
    ((∀ r ∈ rules, evaluate_rule_group tile r.rule_group = some false) →
      classifyTile rules tile = some RLabel.dflt) ∧
    (∀ i j, (hi : i < rules.length) → i < j →
      evaluate_rule_group tile (rules.get ⟨i, hi⟩).rule_group = some true →
      classifyTile rules tile ≠ some (RLabel.rule j)) := by
  refine ⟨?_, ?_, ?_⟩
  · intro i hi hbefore hmatch
    have := firstMatch_first tile rules 0 i hi hbefore hmatch
    rwa [Nat.zero_add] at this
  · intro h
    exact firstMatch_default tile rules 0 h
  · intro i j hi hij hmatch hcontra
    have := firstMatch_le tile rules 0 i hi j hmatch hcontra
    omega

/-- Two overlapping rules for the priority witness: a record with
laplacian 150 matches both. -/
def rulesP : List HeatmapRule :=
  [⟨none, "red", ⟨"AND", [⟨"laplacian", ">", .int 100⟩]⟩⟩,
   ⟨none, "blue", ⟨"AND", [⟨"laplacian", ">", .int 50⟩]⟩⟩]

/-- Concrete record matching both rules of `rulesP`. -/
def tileP : Record := [("laplacian", some (.int 150))]

theorem priority_first_match_witness :
    classifyTile rulesP tileP ≠ some (RLabel.rule 1) :=
  (priority_first_match rulesP tileP).2.2 0 1 (by decide) (by decide) (by decide)

/-- C10: a heatmap request for a source file with no tiles answers grid
`0 × 0`, an empty `heatmap_data`, and an empty `rule_match_counts`
dictionary — in particular the emitted mapping holds no per-rule key and
no `default` key, rather than zero counts for each bucket. -/
theorem empty_heatmap (cfg : HeatmapRulesConfig) :
    generateHeatmap cfg [] = some ⟨0, 0, [], cfg, []⟩ ∧
    ∀ resp : HeatmapResponse, generateHeatmap cfg [] = some resp →
      assocFind resp.rule_match_counts "default" = none ∧
      ∀ i : Nat, assocFind resp.rule_match_counts (toString i) = none := by
  have h0 : generateHeatmap cfg [] = some ⟨0, 0, [], cfg, []⟩ := rfl
  refine ⟨h0, ?_⟩
  intro resp h
  rw [h0] at h
  have hr : resp = ⟨0, 0, [], cfg, []⟩ := (Option.some.inj h).symm
  subst hr
  exact ⟨rfl, fun _ => rfl⟩

/-- Concrete rules configuration for witness instantiations. -/
def cfgW : HeatmapRulesConfig := ⟨"gray", rulesW⟩

theorem empty_heatmap_witness :
    assocFind (HeatmapResponse.rule_match_counts ⟨0, 0, [], cfgW, []⟩) "default" = none :=
  ((empty_heatmap cfgW).2 ⟨0, 0, [], cfgW, []⟩ (empty_heatmap cfgW).1).1

/-- C8: the reporting aggregator derives each group's default count as
`total - sum(explicit rule counts)` (`lib/reporting.py` lines 116-117),
and that derived value coincides with what counting the default labels
directly would give; the percentage emitted for a count is
`count / total * 100`, and a group with total `0` gets percentage `0`
instead of a division error. -/
theorem aggregator_default_percentage (rules : List HeatmapRule)
    (tiles : List Record) (c total : Nat) :
    (compiledCounts rules tiles).2 =
      tiles.length - (compiledCounts rules tiles).1.sum ∧
    (compiledCounts rules tiles).2 =
      countL RLabel.dflt (tiles.map (caseLabel rules)) ∧
    percentage c 0 = 0 ∧
    (0 < total → percentage c total = (c : ℚ) / (total : ℚ) * 100) := by
  refine ⟨rfl, ?_, rfl, ?_⟩
  · have hpart := ruleCounts_partition rules.length (tiles.map (caseLabel rules))
      (caseLabels_mem_spec rules tiles)
    rw [List.length_map] at hpart
    show tiles.length - (ruleCounts rules.length (tiles.map (caseLabel rules))).sum =
      countL RLabel.dflt (tiles.map (caseLabel rules))
    omega
  · intro h
    simp [percentage, h]

theorem aggregator_default_percentage_witness :
    percentage 1 4 = (1 : ℚ) / (4 : ℚ) * 100 :=
  (aggregator_default_percentage [] [] 1 4).2.2.2 (by norm_num)

/-- C5 counterexample: the spec's Scenario C fails on the code. A filter
on a nonexistent field with the whitelisted operator `>` is retained,
interpolated as `T.nonexistent_field > ?`, and makes SQLite raise, which
`search_tiles` surfaces as an HTTP 400 error — not the unfiltered
`total_results`. -/
theorem filter_drop_counterexample :
    totalResults ⟨[], [⟨"id", "asc"⟩], 1, 50⟩ [[("id", some (Value.int 1))]] =
      Except.ok 1 ∧
    totalResults ⟨[⟨"nonexistent_field", ">", Value.int 5⟩], [⟨"id", "asc"⟩], 1, 50⟩
      [[("id", some (Value.int 1))]] = Except.error "no such column" :=
  ⟨rfl, rfl⟩

/-- C5 amended: a filter whose operator is not whitelisted is silently
dropped — the request answers exactly as if the filter were absent, with
no error. A sort entry with an unrecognized direction is not dropped: the
entry is kept with its key and its direction silently coerced to `ASC`,
and a nonempty sort list always contributes its own parts, never the
`T.id` fallback. A filter key naming an unknown field with a whitelisted
operator, or a sort key naming an unknown field, is retained and surfaces
as a database error response. -/
theorem filter_drop_amended :
    (∀ (f : Filter) (fs : List Filter) (ss : List SortSpec) (p l : Int)
      (db : List Record), valid_operators.contains f.op = false →
      totalResults ⟨f :: fs, ss, p, l⟩ db = totalResults ⟨fs, ss, p, l⟩ db) ∧
    (∀ s : SortSpec, (strLower s.order == "asc") = false →
      (strLower s.order == "desc") = false →
      orderByPart s = tableAlias s.key ++ "." ++ s.key ++ " " ++ "ASC") ∧
    (∀ (s : SortSpec) (ss : List SortSpec),
      orderByClause (s :: ss) =
        "ORDER BY " ++ String.intercalate ", " ((s :: ss).map orderByPart)) ∧
    (∀ (db : List Record) (v : Value) (ss : List SortSpec) (p l : Int),
      totalResults ⟨[⟨"nonexistent_field", ">", v⟩], ss, p, l⟩ db =
        Except.error "no such column") ∧
    (∀ (fs : List Filter) (ss : List SortSpec) (s : SortSpec) (p l : Int)
      (db : List Record), s ∈ ss → columnResolves s.key = false →
      totalResults ⟨fs, ss, p, l⟩ db = Except.error "no such column") := by
  refine ⟨?_, ?_, ?_, ?_, ?_⟩
  · intro f fs ss p l db h
    unfold totalResults searchErrors retainedFilters
    rw [List.filter_cons_of_neg (by simpa using h)]
  · intro s h1 h2
    unfold orderByPart
    rw [h1, h2]
    rfl
  · intro s ss
    rfl
  · intro db v ss p l
    unfold totalResults searchErrors
    have hr : retainedFilters [⟨"nonexistent_field", ">", v⟩] =
        [⟨"nonexistent_field", ">", v⟩] := rfl
    rw [hr]
    rfl
  · intro fs ss s p l db hmem hcol
    have hany : ss.any (fun s => !(columnResolves s.key)) = true :=
      List.any_eq_true.mpr ⟨s, hmem, by rw [hcol]; rfl⟩
    unfold totalResults searchErrors
    rw [hany]
    simp

theorem filter_drop_amended_witness :
    totalResults ⟨[⟨"laplacian", "LIKE", Value.str "x"⟩], [], 1, 50⟩ [] =
      totalResults ⟨[], [], 1, 50⟩ [] :=
  filter_drop_amended.1 ⟨"laplacian", "LIKE", Value.str "x"⟩ [] [] 1 50 [] (by decide)

/-- C6 counterexample: the query compiler does not choose column names
from a fixed whitelist — a caller-supplied key is interpolated into the
SQL text verbatim. The key `bogus_col` appears in the generated clause
although it belongs to no column enumeration of the code (neither the
schema of the queried tables nor `VALID_COLUMNS`). -/
theorem bound_params_counterexample :
    (buildFilterClauses [⟨"bogus_col", ">", Value.int 5⟩]).1 = ["T.bogus_col > ?"] ∧
    columnResolves "bogus_col" = false ∧
    VALID_COLUMNS.contains "bogus_col" = false := by
  refine ⟨by decide, by decide, by decide⟩

/-- C6 amended: every filter value is passed as a bound parameter and
never interpolated — the generated clause texts are independent of the
values — every retained operator comes from the whitelist and the table
alias from the fixed pair `T`/`S`; but the column position of each clause
holds the caller's key verbatim, with no whitelist applied. -/
theorem bound_params_amended (fs : List Filter) :
    (buildFilterClauses fs).2 = (retainedFilters fs).map (fun f => f.value) ∧
    (buildFilterClauses fs).1 = (retainedFilters fs).map
      (fun f => tableAlias f.key ++ "." ++ f.key ++ " " ++ f.op ++ " ?") ∧
    (∀ f ∈ retainedFilters fs, valid_operators.contains f.op = true ∧
      (tableAlias f.key = "T" ∨ tableAlias f.key = "S")) ∧
    (∀ g : Value → Value,
      (buildFilterClauses (fs.map (fun f => ⟨f.key, f.op, g f.value⟩))).1 =
        (buildFilterClauses fs).1) := by
  refine ⟨?_, ?_, ?_, ?_⟩
  · induction fs with
    | nil => rfl
    | cons f rest ih =>
      by_cases h : f.op ∈ valid_operators
      · simp [buildFilterClauses, retainedFilters, List.filter_cons, h, ih]
      · simp [buildFilterClauses, retainedFilters, List.filter_cons, h, ih]
  · induction fs with
    | nil => rfl
    | cons f rest ih =>
      by_cases h : f.op ∈ valid_operators
      · simp [buildFilterClauses, retainedFilters, List.filter_cons, h, ih]
      · simp [buildFilterClauses, retainedFilters, List.filter_cons, h, ih]
  · intro f hf
    obtain ⟨_, hop⟩ := List.mem_filter.mp hf
    refine ⟨hop, ?_⟩
    unfold tableAlias
    by_cases h : f.key == "json_filename"
    · rw [if_pos h]
      exact Or.inr rfl
    · rw [if_neg h]
      exact Or.inl rfl
  · intro g
    induction fs with
    | nil => rfl
    | cons f rest ih =>
      by_cases h : f.op ∈ valid_operators
      · simp [buildFilterClauses, h, ih]
      · simp [buildFilterClauses, h, ih]

theorem bound_params_amended_witness :
    valid_operators.contains ">" = true ∧
    (tableAlias "laplacian" = "T" ∨ tableAlias "laplacian" = "S") :=
  (bound_params_amended [⟨"laplacian", ">", Value.int 7⟩]).2.2.1
    ⟨"laplacian", ">", Value.int 7⟩ (by decide)

/-- C7: the count query and the page query are executed with identical
filter parameters (the page query appends only the pagination
parameters), the pagination parameters are `limit` and
`(page - 1) * limit`, the count query carries the same `WHERE` suffix and
no ordering, the page query ends in `LIMIT ? OFFSET ?` behind its order
clause, and an empty sort list falls back to the stable `ORDER BY T.id
ASC`; the builder is a pure function of the request, so pagination is
deterministic across calls. -/
theorem pagination_structure (req : TilesRequest) :
    (buildSearchQueries req).1.2 = (buildFilterClauses req.filters).2 ∧
    (buildSearchQueries req).2.2 =
      (buildSearchQueries req).1.2 ++
        [Value.int req.limit, Value.int ((req.page - 1) * req.limit)] ∧
    (buildSearchQueries req).1.1 = count_query_base ++ whereSuffix req.filters ∧
    (buildSearchQueries req).2.1 =
      base_query ++ whereSuffix req.filters ++ " " ++ orderByClause req.sort ++
        " LIMIT ? OFFSET ?" ∧
    (req.sort = [] → orderByClause req.sort = "ORDER BY T.id ASC") := by
  refine ⟨rfl, rfl, rfl, rfl, ?_⟩
  intro h
  rw [h]
  rfl

theorem pagination_structure_witness :
    orderByClause ([] : List SortSpec) = "ORDER BY T.id ASC" :=
  (pagination_structure ⟨[], [], 2, 10⟩).2.2.2.2 rfl

/-- C9: the retained filters are combined conjunctively — when the query
executes, a row is counted exactly when every retained comparison holds
(equivalently, every whitelisted-operator filter of the request holds),
and prepending one more filter can only shrink the count, never widen
it; no disjunctive combination is expressible. -/
theorem conjunctive_filters (req : TilesRequest) (db : List Record)
    (hok : searchErrors req = false) :
    totalResults req db = Except.ok
      ((db.filter (fun row =>
        (retainedFilters req.filters).all (filterHolds row))).length) ∧
    (∀ row : Record,
      (retainedFilters req.filters).all (filterHolds row) = true ↔
      ∀ f ∈ req.filters, valid_operators.contains f.op = true →
        filterHolds row f = true) ∧
    (∀ f : Filter,
      searchErrors ⟨f :: req.filters, req.sort, req.page, req.limit⟩ = false →
      ∀ n m : Nat, totalResults req db = Except.ok n →
        totalResults ⟨f :: req.filters, req.sort, req.page, req.limit⟩ db =
          Except.ok m →
        m ≤ n) := by
  refine ⟨?_, ?_, ?_⟩
  · simp [totalResults, hok]
  · intro row
    rw [List.all_eq_true]
    constructor
    · intro h f hf hop
      exact h f (List.mem_filter.mpr ⟨hf, hop⟩)
    · intro h f hf
      obtain ⟨hmem, hop⟩ := List.mem_filter.mp hf
      exact h f hmem hop
  · intro f herr n m hn hm
    simp [totalResults, hok] at hn
    simp [totalResults, herr] at hm
    subst hn
    subst hm
    by_cases hv : valid_operators.contains f.op
    · have hr : retainedFilters (f :: req.filters) =
          f :: retainedFilters req.filters :=
        List.filter_cons_of_pos hv
      rw [hr]
      apply List.Sublist.length_le
      apply List.monotone_filter_right
      intro row hrow
      have := List.all_eq_true.mp hrow
      exact List.all_eq_true.mpr
        (fun x hx => this x (List.mem_cons_of_mem f hx))
    · have hr : retainedFilters (f :: req.filters) =
          retainedFilters req.filters :=
        List.filter_cons_of_neg (by simpa using hv)
      rw [hr]

/-- A whitelisted comparison between same-class operands never raises in
Python. -/
theorem pyCompare_some (op : String) (a b : Value)
    (hop : opWhitelist.contains op = true) (hty : sameType a b = true) :
    ∃ r, pyCompare op a b = some r := by
  have hops : op = ">" ∨ op = "<" ∨ op = ">=" ∨ op = "<=" ∨ op = "==" ∨
      op = "!=" := by
    simp [opWhitelist, List.contains] at hop
    exact hop
  cases a <;> cases b <;> simp [sameType] at hty <;>
    rcases hops with h | h | h | h | h | h <;> subst h <;> exact ⟨_, rfl⟩

/-- A type-compatible condition always evaluates cleanly. -/
theorem evalCondition_total (tile : Record) (c : HeatmapCondition)
    (hty : typeOk tile c = true) : ∃ b, evalCondition tile c = some b := by
  unfold typeOk at hty
  cases h : recordGet tile c.key with
  | none => exact ⟨false, by unfold evalCondition; rw [h]⟩
  | some ov =>
    cases ov with
    | none => exact ⟨false, by unfold evalCondition; rw [h]⟩
    | some v =>
      rw [h] at hty
      by_cases hop : opWhitelist.contains c.op = true
      · obtain ⟨r, hr⟩ := pyCompare_some c.op v c.value hop hty
        have hopm : c.op ∈ opWhitelist := by simpa using hop
        exact ⟨r, by unfold evalCondition; rw [h]; simp [hopm, hr]⟩
      · have hopm : c.op ∉ opWhitelist := by simpa using hop
        exact ⟨false, by unfold evalCondition; rw [h]; simp [hopm]⟩

/-- A list of type-compatible conditions evaluates cleanly. -/
theorem evalConditions_total (tile : Record) :
    ∀ cs : List HeatmapCondition, (∀ c ∈ cs, typeOk tile c = true) →
      ∃ bs, evalConditions tile cs = some bs := by
  intro cs
  induction cs with
  | nil => intro _; exact ⟨[], rfl⟩
  | cons c rest ih =>
    intro h
    obtain ⟨b, hb⟩ := evalCondition_total tile c (h c (List.mem_cons_self c rest))
    obtain ⟨bs, hbs⟩ := ih (fun x hx => h x (List.mem_cons_of_mem c hx))
    exact ⟨b :: bs, by unfold evalConditions; rw [hb, hbs]⟩

/-- C4 counterexample: `evaluate_rule_group` is not fail-soft on
incomparable operands. A numeric record value order-compared against a
string condition value raises a Python `TypeError` inside the untried
loop body, which escapes the function (here `none`) instead of making the
predicate false. -/
theorem fail_soft_counterexample :
    evaluate_rule_group [("laplacian", some (Value.int 5))]
      ⟨"AND", [⟨"laplacian", ">", Value.str "x"⟩]⟩ = none := by decide

/-- C4 amended: a condition with an absent or null field evaluates to
false, and a condition with a non-whitelisted operator evaluates to
false, neither raising; but an order comparison between a numeric and a
text operand raises and the exception propagates out of
`evaluate_rule_group`; when every condition compares same-class operands
the group evaluation is total. -/
theorem fail_soft_amended (tile : Record) (cond : HeatmapCondition)
    (group : RuleGroup) :
    ((recordGet tile cond.key = none ∨ recordGet tile cond.key = some none) →
      evalCondition tile cond = some false) ∧
    (opWhitelist.contains cond.op = false →
      evalCondition tile cond = some false) ∧
    (∀ v : Value, recordGet tile cond.key = some (some v) →
      sameType v cond.value = false → opWhitelist.contains cond.op = true →
      cond.op ≠ "==" → cond.op ≠ "!=" → evalCondition tile cond = none) ∧
    ((∀ c ∈ group.conditions, typeOk tile c = true) →
      ∃ b, evaluate_rule_group tile group = some b) := by
  refine ⟨?_, ?_, ?_, ?_⟩
  · intro h
    unfold evalCondition
    rcases h with h | h <;> rw [h]
  · intro h
    unfold evalCondition
    cases hg : recordGet tile cond.key with
    | none => rfl
    | some ov =>
      cases ov with
      | none => rfl
      | some v =>
        have hm : cond.op ∉ opWhitelist := by simpa using h
        simp [hm]
  · intro v hv hty hop hne hne2
    unfold evalCondition
    rw [hv]
    simp only [hop, if_true]
    show pyCompare cond.op v cond.value = none
    have hops : cond.op = ">" ∨ cond.op = "<" ∨ cond.op = ">=" ∨
        cond.op = "<=" ∨ cond.op = "==" ∨ cond.op = "!=" := by
      simp [opWhitelist, List.contains] at hop
      exact hop
    rcases hops with h | h | h | h | h | h
    · revert hty
      rw [h]
      cases v <;> cases cond.value <;> intro hty <;> simp [sameType] at hty <;> rfl
    · revert hty
      rw [h]
      cases v <;> cases cond.value <;> intro hty <;> simp [sameType] at hty <;> rfl
    · revert hty
      rw [h]
      cases v <;> cases cond.value <;> intro hty <;> simp [sameType] at hty <;> rfl
    · revert hty
      rw [h]
      cases v <;> cases cond.value <;> intro hty <;> simp [sameType] at hty <;> rfl
    · exact absurd h hne
    · exact absurd h hne2
  · intro h
    obtain ⟨bs, hbs⟩ := evalConditions_total tile group.conditions h
    by_cases h1 : (strUpper group.logical_op == "AND") = true
    · exact ⟨bs.all id, by unfold evaluate_rule_group; rw [hbs]; simp [h1]⟩
    · by_cases h2 : (strUpper group.logical_op == "OR") = true
      · exact ⟨bs.any id, by unfold evaluate_rule_group; rw [hbs]; simp [h1, h2]⟩
      · exact ⟨false, by unfold evaluate_rule_group; rw [hbs]; simp [h1, h2]⟩

theorem fail_soft_amended_witness :
    evalCondition [] ⟨"laplacian", ">", Value.int 5⟩ = some false :=
  (fail_soft_amended [] ⟨"laplacian", ">", Value.int 5⟩ ⟨"AND", []⟩).1
    (Or.inl (by decide))

theorem conjunctive_filters_witness :
    totalResults ⟨[⟨"laplacian", ">", Value.int 100⟩], [], 1, 50⟩ tilesW =
      Except.ok ((tilesW.filter (fun row =>
        (retainedFilters [⟨"laplacian", ">", Value.int 100⟩]).all
          (filterHolds row))).length) :=
  (conjunctive_filters ⟨[⟨"laplacian", ">", Value.int 100⟩], [], 1, 50⟩ tilesW
    (by decide)).1

/-- On same-class operands, a whitelisted Python comparison and the SQLite
comparison agree. -/
theorem pyCompare_eq_sql (op : String) (a b : Value)
    (hop : opWhitelist.contains op = true) (hty : sameType a b = true) :
    pyCompare op a b = some (sqlCompare op a b) := by
  have hops : op = ">" ∨ op = "<" ∨ op = ">=" ∨ op = "<=" ∨ op = "==" ∨
      op = "!=" := by
    simp [opWhitelist, List.contains] at hop
    exact hop
  cases a <;> cases b <;> simp [sameType] at hty <;>
    rcases hops with h | h | h | h | h | h <;> subst h <;> rfl

/-- Every shared tile column is accepted by `generate_report_data`. -/
theorem sharedSubValid (k : String) (h : sharedTileColumns.contains k = true) :
    VALID_COLUMNS.contains k = true := by
  simp [sharedTileColumns, List.contains] at h
  rcases h with h | h | h | h | h | h | h | h | h | h | h | h <;> subst h <;> decide

/-- When every condition is shared-column/whitelisted, the compiler keeps
all of them. -/
theorem keptConditions_eq (g : RuleGroup)
    (h : ∀ c ∈ g.conditions, condOk c = true) :
    keptConditions g = g.conditions := by
  unfold keptConditions
  apply List.filter_eq_self.mpr
  intro c hc
  have hco := h c hc
  unfold condOk at hco
  rw [Bool.and_eq_true] at hco
  rw [sharedSubValid c.key hco.1, hco.2]
  rfl

theorem optGetD_false (o : Option Bool) : o.getD false = (o == some true) := by
  rcases o with _ | b
  · rfl
  · cases b <;> rfl

/-- A kept, type-compatible condition evaluates in memory to exactly the
truth of its SQL counterpart, with SQL `NULL` collapsing to false. -/
theorem evalCondition_sql (tile : Record) (c : HeatmapCondition)
    (hco : condOk c = true) (hty : typeOk tile c = true) :
    evalCondition tile c = some ((sqlEvalCondition tile c).getD false) := by
  unfold condOk at hco
  rw [Bool.and_eq_true] at hco
  unfold typeOk at hty
  cases h : recordGet tile c.key with
  | none => unfold evalCondition sqlEvalCondition; rw [h]; rfl
  | some ov =>
    cases ov with
    | none => unfold evalCondition sqlEvalCondition; rw [h]; rfl
    | some v =>
      rw [h] at hty
      have hopm : c.op ∈ opWhitelist := by simpa using hco.2
      unfold evalCondition sqlEvalCondition
      rw [h]
      simp [hopm, pyCompare_eq_sql c.op v c.value hco.2 hty]

/-- The condition list of a kept, type-compatible group evaluates cleanly
to the SQL truths. -/
theorem evalConditions_sql (tile : Record) :
    ∀ cs : List HeatmapCondition, (∀ c ∈ cs, condOk c = true) →
      (∀ c ∈ cs, typeOk tile c = true) →
      evalConditions tile cs =
        some (cs.map (fun c => (sqlEvalCondition tile c).getD false)) := by
  intro cs
  induction cs with
  | nil => intro _ _; rfl
  | cons c rest ih =>
    intro h1 h2
    have hc := evalCondition_sql tile c (h1 c (List.mem_cons_self c rest))
      (h2 c (List.mem_cons_self c rest))
    have hr := ih (fun x hx => h1 x (List.mem_cons_of_mem c hx))
      (fun x hx => h2 x (List.mem_cons_of_mem c hx))
    unfold evalConditions
    rw [hc, hr]
    rfl

theorem all_map_getD (tile : Record) (cs : List HeatmapCondition) :
    (cs.map (fun c => (sqlEvalCondition tile c).getD false)).all id =
      cs.all (fun c => sqlEvalCondition tile c == some true) := by
  induction cs with
  | nil => rfl
  | cons c rest ih =>
    rw [List.map_cons, List.all_cons, List.all_cons, ih, optGetD_false]
    rfl

theorem any_map_getD (tile : Record) (cs : List HeatmapCondition) :
    (cs.map (fun c => (sqlEvalCondition tile c).getD false)).any id =
      cs.any (fun c => sqlEvalCondition tile c == some true) := by
  induction cs with
  | nil => rfl
  | cons c rest ih =>
    rw [List.map_cons, List.any_cons, List.any_cons, ih, optGetD_false]
    rfl

/-- On a well-formed, type-compatible group the in-memory evaluation
returns cleanly exactly the truth of the compiled WHEN condition. -/
theorem evaluate_rule_group_sql (tile : Record) (g : RuleGroup)
    (hg : groupOk g = true) (hty : ∀ c ∈ g.conditions, typeOk tile c = true) :
    evaluate_rule_group tile g = some (compiledGroupTaken tile g) := by
  unfold groupOk at hg
  rw [Bool.and_eq_true, Bool.and_eq_true] at hg
  obtain ⟨⟨_, hlog⟩, hall⟩ := hg
  have hco : ∀ c ∈ g.conditions, condOk c = true :=
    fun c hc => List.all_eq_true.mp hall c hc
  have hkept : keptConditions g = g.conditions := keptConditions_eq g hco
  unfold evaluate_rule_group compiledGroupTaken
  rw [evalConditions_sql tile g.conditions hco hty, hkept]
  cases hAnd : (strUpper g.logical_op == "AND") with
  | true => simp [hAnd, all_map_getD]
  | false =>
    have hOr : (strUpper g.logical_op == "OR") = true := by
      rw [hAnd] at hlog
      simpa using hlog
    simp [hAnd, hOr, any_map_getD]

/-- On well-formed, type-compatible rules the in-memory scan returns
cleanly the label of the compiled CASE scan. -/
theorem firstMatch_eq_case (tile : Record) :
    ∀ (rs : List HeatmapRule) (i0 : Nat),
      (∀ r ∈ rs, groupOk r.rule_group = true) →
      (∀ r ∈ rs, ∀ c ∈ r.rule_group.conditions, typeOk tile c = true) →
      firstMatch tile rs i0 = some (caseLabelGo tile rs i0) := by
  intro rs
  induction rs with
  | nil => intro i0 _ _; rfl
  | cons r rest ih =>
    intro i0 hg hty
    have hgr := hg r (List.mem_cons_self r rest)
    have hev := evaluate_rule_group_sql tile r.rule_group hgr
      (hty r (List.mem_cons_self r rest))
    have hkne : (keptConditions r.rule_group).isEmpty = false := by
      have hgr2 := hgr
      unfold groupOk at hgr2
      rw [Bool.and_eq_true, Bool.and_eq_true] at hgr2
      obtain ⟨⟨hne, _⟩, hall⟩ := hgr2
      rw [keptConditions_eq r.rule_group
        (fun c hc => List.all_eq_true.mp hall c hc)]
      simpa using hne
    have hrec := ih (i0 + 1) (fun x hx => hg x (List.mem_cons_of_mem r hx))
      (fun x hx => hty x (List.mem_cons_of_mem r hx))
    unfold firstMatch caseLabelGo
    rw [hev]
    cases htaken : compiledGroupTaken tile r.rule_group with
    | true => simp [hkne, htaken]
    | false => simp [hkne, htaken, hrec]

/-- On well-formed, type-compatible inputs the batch classification
succeeds with exactly the compiled labels. -/
theorem classifyAll_eq_case (rules : List HeatmapRule) :
    ∀ tiles : List Record,
      (∀ r ∈ rules, groupOk r.rule_group = true) →
      (∀ t ∈ tiles, ∀ r ∈ rules, ∀ c ∈ r.rule_group.conditions, typeOk t c = true) →
      classifyAll rules tiles = some (tiles.map (caseLabel rules)) := by
  intro tiles
  induction tiles with
  | nil => intro _ _; rfl
  | cons t ts ih =>
    intro hg hty
    have h1 : classifyTile rules t = some (caseLabel rules t) :=
      firstMatch_eq_case t rules 0 hg
        (fun r hr => hty t (List.mem_cons_self t ts) r hr)
    have h2 := ih hg (fun x hx => hty x (List.mem_cons_of_mem t hx))
    unfold classifyAll
    rw [h1, h2]
    rfl

/-- C1 counterexample: the two strategies diverge on a rule whose
condition list is empty — a RuleSet whose condition fields are trivially
all present in the record schema. In memory, `all([])` is `True`, so the
rule matches every record; compiled, the rule contributes no WHEN clause
(`lib/reporting.py` line 80) and never matches, so the record falls to
the default bucket. -/
theorem engine_equivalence_counterexample :
    inMemoryCounts [⟨none, "red", ⟨"AND", []⟩⟩]
      [[("laplacian", some (Value.int 1))]] = some ([1], 0) ∧
    compiledCounts [⟨none, "red", ⟨"AND", []⟩⟩]
      [[("laplacian", some (Value.int 1))]] = ([0], 1) ∧
    inMemoryCounts [⟨none, "red", ⟨"AND", []⟩⟩]
      [[("laplacian", some (Value.int 1))]] ≠
      some (compiledCounts [⟨none, "red", ⟨"AND", []⟩⟩]
        [[("laplacian", some (Value.int 1))]]) :=
  ⟨by decide, by decide, by decide⟩

/-- C1 amended: for every RuleSet whose rules each carry at least one
condition, whose condition fields are shared tile columns, operators
whitelisted, `logical_op` a case-insensitive AND/OR, string values
quote-safe, and every batch of records type-compatible with the
conditions, the in-memory strategy and the compiled single-pass CASE
strategy produce identical per-rule counts and identical default
counts. -/
theorem engine_equivalence_amended (rules : List HeatmapRule)
    (tiles : List Record)
    (hg : ∀ r ∈ rules, groupOk r.rule_group = true)
    (hq : ∀ r ∈ rules, ∀ c ∈ r.rule_group.conditions,
      valueQuoteSafe c.value = true)
    (hty : ∀ t ∈ tiles, ∀ r ∈ rules, ∀ c ∈ r.rule_group.conditions,
      typeOk t c = true) :
    inMemoryCounts rules tiles = some (compiledCounts rules tiles) := by
  have hca := classifyAll_eq_case rules tiles hg hty
  have hpart := ruleCounts_partition rules.length (tiles.map (caseLabel rules))
    (caseLabels_mem_spec rules tiles)
  rw [List.length_map] at hpart
  unfold inMemoryCounts
  rw [hca]
  simp only [Option.map_some', Option.some.injEq]
  show (ruleCounts rules.length (tiles.map (caseLabel rules)),
      countL RLabel.dflt (tiles.map (caseLabel rules))) =
    (ruleCounts rules.length (tiles.map (caseLabel rules)),
      tiles.length - (ruleCounts rules.length (tiles.map (caseLabel rules))).sum)
  have hd : countL RLabel.dflt (tiles.map (caseLabel rules)) =
      tiles.length -
        (ruleCounts rules.length (tiles.map (caseLabel rules))).sum := by
    omega
  rw [hd]

/-- Rules exercising AND, lowercase or, a null field and both value
classes, all within the amended fragment. -/
def rulesE : List HeatmapRule :=
  [⟨none, "red", ⟨"AND", [⟨"laplacian", ">", .int 100⟩,
    ⟨"entropy", "<", .int 5⟩]⟩⟩,
   ⟨none, "blue", ⟨"or", [⟨"status", "==", .str "ok"⟩]⟩⟩]

/-- Records exercising matches, a null metric and a default fall-through. -/
def tilesE : List Record :=
  [[("laplacian", some (.int 150)), ("entropy", some (.int 3)),
    ("status", some (.str "ok"))],
   [("laplacian", some (.int 150)), ("entropy", none),
    ("status", some (.str "bad"))],
   [("laplacian", some (.int 50)), ("status", some (.str "ok"))]]

theorem engine_equivalence_amended_witness :
    inMemoryCounts rulesE tilesE = some (compiledCounts rulesE tilesE) :=
  engine_equivalence_amended rulesE tilesE (by decide) (by decide) (by decide)

end TileAnalyzer
